import Mathlib

/-!
Verification development for the crypto-portfolio-tracker repository.

The TypeScript sources embedded here:
  src/chains/bitcoin.ts      (class BitcoinHandler)
  src/chains/ethereum.ts     (class EthereumHandler)
  src/app/content/[id]/route.ts  (the content relay route handler GET)

Modelling conventions:
  - Upstream JSON payloads are modelled by the inductive `Json`; the extra
    constructor `undefined` models the JavaScript value undefined that
    property access can produce.
  - JavaScript code that can throw is modelled in `Except Unit`; a thrown
    exception is `Except.error ()`.  Property access on null/undefined
    throws; property access on any other value yields `undefined`.
  - Network effects are passed in explicitly: each handler method takes the
    outcome of its outbound fetches as an argument (an inductive describing
    thrown / non-success-status / payload), which is the standard shallow
    embedding of effectful code.
  - `Date` timestamps are omitted from the model (`timestamp`,
    `lastUpdated`): no claim concerns them and they carry no logic.
  - JavaScript numbers appearing in payloads are modelled as `Int`
    (the code only manipulates integral quantities); error-message text
    coming from stringified runtime exceptions is threaded through as an
    abstract `String` where the code determines it, and abbreviated where
    it would stringify an engine-generated TypeError.
-/

/-- Model of a JavaScript/JSON runtime value as seen by the handlers. -/
inductive Json where
  | null : Json
  | undefined : Json
  | bool : Bool → Json
  | num : Int → Json
  | str : String → Json
  | arr : List Json → Json
  | obj : List (String × Json) → Json

/-- JavaScript truthiness of a value. -/
def truthy : Json → Bool
  | .null => false
  | .undefined => false
  | .bool b => b
  | .num n => n != 0
  | .str s => !s.isEmpty
  | .arr _ => true
  | .obj _ => true

/-- Array.isArray. -/
def isArr : Json → Bool
  | .arr _ => true
  | _ => false

/-- Field lookup in an object literal (first binding wins; the model assumes
field lists are deduplicated, as JSON.parse output is). -/
def jlookup : List (String × Json) → String → Json
  | [], _ => .undefined
  | (k, v) :: rest, key => if k == key then v else jlookup rest key

/-- JavaScript property access `base.k`: throws (TypeError) on null and
undefined, yields the field or undefined on objects, and undefined on any
other value. -/
def getField : Json → String → Except Unit Json
  | .null, _ => .error ()
  | .undefined, _ => .error ()
  | .obj fs, k => .ok (jlookup fs k)
  | _, _ => .ok .undefined

/-- Optional-chained access `base?.k`, which never throws. -/
def optGet : Json → String → Json
  | .obj fs, k => jlookup fs k
  | _, _ => .undefined

/-- Indexing `base?.[i]` (arrays by position, strings by character,
objects by stringified key), never throwing. -/
def optIndex : Json → Nat → Json
  | .arr xs, i => match xs.get? i with | some x => x | none => .undefined
  | .str s, i => match s.data.get? i with | some c => .str (String.mk [c]) | none => .undefined
  | .obj fs, i => jlookup fs (toString i)
  | _, _ => .undefined

mutual

/-- JavaScript string conversion as performed by template literals. -/
def jsToStr : Json → String
  | .null => "null"
  | .undefined => "undefined"
  | .bool true => "true"
  | .bool false => "false"
  | .num n => toString n
  | .str s => s
  | .arr xs => jsArrJoin xs
  | .obj _ => "[object Object]"

/-- Array stringification: elements joined by commas, with null and
undefined elements rendered as empty strings. -/
def jsArrJoin : List Json → String
  | [] => ""
  | x :: xs =>
    (match x with
      | .null => ""
      | .undefined => ""
      | v => jsToStr v)
    ++ (match xs with
      | [] => ""
      | _ :: _ => "," ++ jsArrJoin xs)

end

/-- Whether the character list begins with the given pattern. -/
def listStarts : List Char → List Char → Bool
  | _, [] => true
  | [], _ :: _ => false
  | a :: as, b :: bs => a == b && listStarts as bs

/-- String.prototype.startsWith. -/
def strStarts (s pat : String) : Bool := listStarts s.data pat.data

/-- Whether the pattern occurs contiguously in the list. -/
def subChain : List Char → List Char → Bool
  | [], pat => pat.isEmpty
  | a :: rest, pat => listStarts (a :: rest) pat || subChain rest pat

/-- String.prototype.includes. -/
def containsSub (s pat : String) : Bool := subChain s.data pat.data

/-- Strict equality of a JavaScript value with a string primitive. -/
def jsStrEq (v : Json) (s : String) : Bool :=
  match v with
  | .str t => t == s
  | _ => false

/-- Lowercasing as done by String.prototype.toLowerCase on ASCII data. -/
def jsLower (s : String) : String := String.mk (s.data.map Char.toLower)

/-- ASCII whitespace, for the trim model. -/
def isWsp (c : Char) : Bool := c == ' ' || c == '\t' || c == '\n' || c == '\r'

/-- String.prototype.trim on ASCII whitespace. -/
def jsTrim (s : String) : String :=
  String.mk (((s.data.dropWhile isWsp).reverse.dropWhile isWsp).reverse)

/-- Left-pad a digit string with zeros to the given width. -/
def padZeros (w : Nat) (s : String) : String :=
  if s.length < w then String.mk (List.replicate (w - s.length) '0') ++ s else s

/-- Drop trailing zero characters. -/
def trimZeros (s : String) : String :=
  String.mk (s.data.reverse.dropWhile (fun c => c == '0')).reverse

/-- Tagged success/failure outcome returned by every public handler
operation; mirrors the APIResponse interface of src/types (the Date
timestamp field is omitted, see the module comment). -/
structure APIResponse (α : Type) where
  success : Bool
  data : Option α
  error : Option String

/-- Normalized asset record, mirroring the Asset interface of src/types for
the fields the handlers populate.  Fields that at runtime may hold any
JavaScript value (copied from upstream payloads or produced by truthiness
fallbacks) are typed `Json`; fields the code always builds as strings are
typed `String`. -/
structure Asset where
  id : String
  type : String
  chain : String
  walletAddress : String
  name : Json
  symbol : Json
  decimals : Option Nat
  balance : String
  balanceFormatted : String
  contractAddress : Json
  tokenStandard : Json
  tokenId : Json
  inscriptionId : Json
  inscriptionNumber : Json
  contentType : Json
  contentUrl : Json
  imageUrl : Json
  collectionName : Json

namespace BitcoinHandler

/-! Embedding of src/chains/bitcoin.ts (class BitcoinHandler). -/

/-- Character class [a-km-zA-HJ-NP-Z1-9] used by the legacy pattern. -/
def base58Char (c : Char) : Bool :=
  (c.isLower && c != 'l') || (c.isUpper && c != 'I' && c != 'O') || (c.isDigit && c != '0')

/-- Character class [a-z0-9] used by the bech32 patterns. -/
def lowerAlnum (c : Char) : Bool := c.isLower || c.isDigit

/-- ADDRESS_PATTERNS.legacy, the anchored regex on 1/3 + 25..34 base58 chars. -/
def legacyChars : List Char → Bool
  | a :: rest =>
    (a == '1' || a == '3') && rest.all base58Char
      && decide (25 ≤ rest.length) && decide (rest.length ≤ 34)
  | _ => false

/-- ADDRESS_PATTERNS.segwit, the anchored regex bc1 + 39..59 chars of [a-z0-9]. -/
def segwitChars : List Char → Bool
  | a :: b :: c :: rest =>
    a == 'b' && b == 'c' && c == '1' && rest.all lowerAlnum
      && decide (39 ≤ rest.length) && decide (rest.length ≤ 59)
  | _ => false

/-- ADDRESS_PATTERNS.taproot, the anchored regex bc1p + exactly 58 chars of [a-z0-9]. -/
def taprootChars : List Char → Bool
  | a :: b :: c :: d :: rest =>
    a == 'b' && b == 'c' && c == '1' && d == 'p' && rest.all lowerAlnum
      && decide (rest.length = 58)
  | _ => false

def legacyTest (s : String) : Bool := legacyChars s.data

def segwitTest (s : String) : Bool := segwitChars s.data

def taprootTest (s : String) : Bool := taprootChars s.data

/-- validateBitcoinAddress: some pattern matches (Object.values order). -/
def validateBitcoinAddress (s : String) : Bool :=
  legacyTest s || segwitTest s || taprootTest s

/-- getAddressType: first matching pattern in the order legacy, segwit,
taproot; otherwise Unknown. -/
def getAddressType (s : String) : String :=
  if legacyTest s then "Legacy"
  else if segwitTest s then "SegWit"
  else if taprootTest s then "Taproot"
  else "Unknown"

/-- Outcome of the one Blockstream address-summary fetch performed by
getBTCBalance: the fetch (or body decoding, or chain_stats access) threw
with the given stringified error, or returned a non-success status, or
delivered the two chain_stats satoshi sums. -/
inductive BtcUpstream where
  | thrown (msg : String)
  | httpError (status : Nat)
  | stats (funded spent : Int)

/-- Number.prototype.toFixed(8) on the exact value m / 10^8 for m ≥ 0. -/
def toFixed8Nat (m : Nat) : String :=
  toString (m / 100000000) ++ "." ++ padZeros 8 (toString (m % 100000000))

/-- Number.prototype.toFixed(8) on the exact value n / 10^8.  The double
arithmetic of the source (float division then toFixed) agrees with this
exact rendering for every |n| below 2 to the 52, which covers the satoshi
range; the model uses the exact form. -/
def toFixed8 (n : Int) : String :=
  if n < 0 then "-" ++ toFixed8Nat (-n).toNat else toFixed8Nat n.toNat

/-- The native BTC Asset built for a satoshi balance. -/
def btcNativeAsset (address : String) (balanceSatoshis : Int) : Asset :=
  { id := "btc_" ++ address ++ "_native"
    type := "native"
    chain := "bitcoin"
    walletAddress := address
    name := .str "Bitcoin"
    symbol := .str "BTC"
    decimals := some 8
    balance := toString balanceSatoshis
    balanceFormatted := toFixed8 balanceSatoshis
    contractAddress := .undefined
    tokenStandard := .undefined
    tokenId := .undefined
    inscriptionId := .undefined
    inscriptionNumber := .undefined
    contentType := .undefined
    contentUrl := .undefined
    imageUrl := .undefined
    collectionName := .undefined }

/-- getBTCBalance.  Returns the APIResponse together with the number of
network fetches performed (0 when validation rejects the address before the
fetch, 1 otherwise).  The thrown validation Error stringifies inside the
template literal of the catch block. -/
def getBTCBalance (address : String) (r : BtcUpstream) : APIResponse Asset × Nat :=
  if validateBitcoinAddress address then
    match r with
    | .thrown msg =>
      (⟨false, none, some ("Failed to fetch BTC balance: " ++ msg)⟩, 1)
    | .httpError status =>
      (⟨false, none, some ("Failed to fetch BTC balance: Error: Bitcoin API error: " ++ toString status)⟩, 1)
    | .stats funded spent =>
      (⟨true, some (btcNativeAsset address (funded - spent)), none⟩, 1)
  else
    (⟨false, none, some "Failed to fetch BTC balance: Error: Invalid Bitcoin address format"⟩, 0)

/-- Models `v?.toLowerCase()`: undefined through null/undefined, lowercase
on strings, TypeError on anything else. -/
def jsOptLower : Json → Except Unit Json
  | .null => .ok .undefined
  | .undefined => .ok .undefined
  | .str s => .ok (.str (jsLower s))
  | _ => .error ()

/-- Models `v?.toLowerCase() || ''` as used for content and title. -/
def jsLowerOrEmpty (v : Json) : Except Unit String := do
  let l ← jsOptLower v
  match l with
  | .str s => pure s
  | _ => pure ""

/-- Models `v?.includes(pat)` under truthiness: undefined (falsy) through
null/undefined, substring test on strings, element test on arrays,
TypeError on other values. -/
def jsOptIncludes (v : Json) (pat : String) : Except Unit Bool :=
  match v with
  | .null => .ok false
  | .undefined => .ok false
  | .str s => .ok (containsSub s pat)
  | .arr xs => .ok (xs.any (fun e => jsStrEq e pat))
  | _ => .error ()

/-- detectSpecialInscriptionType: the prioritized heuristic chain over
lowercased content_type and title plus collection_id, in source order with
JavaScript short-circuit evaluation preserved. -/
def detectSpecialInscriptionType (insc : Json) : Except Unit String := do
  let ctv ← getField insc "content_type"
  let content ← jsLowerOrEmpty ctv
  let tv ← getField insc "title"
  let title ← jsLowerOrEmpty tv
  let cidv ← getField insc "collection_id"
  if containsSub title "quantum cat" then pure "quantum-cats"
  else do
    let q2 ← jsOptIncludes cidv "quantum-cats"
    if q2 || (containsSub content "html" && containsSub title "cat") then pure "quantum-cats"
    else if containsSub title "nodemonke" then pure "nodemonkes"
    else do
      let n2 ← jsOptIncludes cidv "nodemonkes"
      if n2 then pure "nodemonkes"
      else if containsSub title "bitcoin puppet" then pure "bitcoin-puppets"
      else do
        let p2 ← jsOptIncludes cidv "bitcoin-puppets"
        if p2 then pure "bitcoin-puppets"
        else if containsSub title "taproot wizard" then pure "taproot-wizards"
        else do
          let w2 ← jsOptIncludes cidv "taproot-wizards"
          if w2 then pure "taproot-wizards"
          else if containsSub content "html" || containsSub content "javascript" then pure "interactive"
          else if containsSub content "text" then pure "text"
          else if containsSub content "svg" then pure "svg"
          else pure "standard"

/-- Models `title && title.trim()` as a boolean: false on falsy titles,
trim-nonempty on strings, TypeError on truthy values without trim. -/
def jsTruthyTrim : Json → Except Unit Bool
  | .str s => .ok (!s.isEmpty && !(jsTrim s).isEmpty)
  | .null => .ok false
  | .undefined => .ok false
  | .bool b => if b then .error () else .ok false
  | .num n => if n == 0 then .ok false else .error ()
  | .arr _ => .error ()
  | .obj _ => .error ()

/-- Collection word of the fallback name per special type. -/
def inscriptionLabel : String → String
  | "quantum-cats" => "Quantum Cat"
  | "nodemonkes" => "NodeMonke"
  | "bitcoin-puppets" => "Bitcoin Puppet"
  | "taproot-wizards" => "Taproot Wizard"
  | "interactive" => "Interactive Inscription"
  | "text" => "Text Inscription"
  | "svg" => "SVG Inscription"
  | _ => "Inscription"

/-- getInscriptionName: the provided title when truthy with nonempty trim,
else the special-type label with the inscription number. -/
def getInscriptionName (insc : Json) (specialType : String) : Except Unit Json := do
  let t ← getField insc "title"
  let keep ← jsTruthyTrim t
  if keep then pure t
  else do
    let num ← getField insc "number"
    pure (.str (inscriptionLabel specialType ++ " #" ++ jsToStr num))

/-- Fallback collection label per special type. -/
def collectionLabel : String → String
  | "quantum-cats" => "Quantum Cats"
  | "nodemonkes" => "NodeMonkes"
  | "bitcoin-puppets" => "Bitcoin Puppets"
  | "taproot-wizards" => "Taproot Wizards"
  | "interactive" => "Interactive Ordinals"
  | "text" => "Text Inscriptions"
  | "svg" => "SVG Inscriptions"
  | _ => "Bitcoin Ordinals"

/-- The regex replace of dashes by spaces. -/
def dashToSpace (s : String) : String :=
  String.mk (s.data.map (fun c => if c == '-' then ' ' else c))

/-- Word characters of the regex class backslash-w. -/
def isWordChar (c : Char) : Bool := c.isAlphanum || c == '_'

/-- Uppercase every word character at a word boundary, tracking whether the
previous character was a word character. -/
def titleCaseList : Bool → List Char → List Char
  | _, [] => []
  | prevWord, c :: rest =>
    (if isWordChar c && !prevWord then c.toUpper else c) :: titleCaseList (isWordChar c) rest

def titleCase (s : String) : String := String.mk (titleCaseList false s.data)

/-- getCollectionName: title-cased collection_id when truthy (TypeError on a
truthy non-string, which has no replace method), else the special-type
fallback label. -/
def getCollectionName (insc : Json) (specialType : String) : Except Unit Json := do
  let cid ← getField insc "collection_id"
  if truthy cid then
    match cid with
    | .str s => pure (.str (titleCase (dashToSpace s)))
    | _ => .error ()
  else pure (.str (collectionLabel specialType))

/-- First candidate that is a string starting with http, as the URL loops
of getOrdinalImageUrl select. -/
def firstHttp : List Json → Option String
  | [] => none
  | v :: rest =>
    match v with
    | .str s => if strStarts s "http" then some s else firstHttp rest
    | _ => firstHttp rest

/-- getOrdinalImageUrl with its source control flow: the quantum-cats and
interactive preview loop (falling through when it finds nothing, which
cannot happen since its template candidates start with http), the svg
content_url early return, the text undefined return, and the standard
multi-endpoint loop. -/
def getOrdinalImageUrl (insc : Json) (specialType : Option String) : Except Unit Json := do
  let r1 ← match specialType with
    | some "quantum-cats" | some "interactive" => do
      let pu ← getField insc "preview_url"
      let idv ← getField insc "id"
      let cu ← getField insc "content_url"
      pure (firstHttp [pu,
        .str ("https://ordinals.com/preview/" ++ jsToStr idv),
        .str ("https://ordinals.com/content/" ++ jsToStr idv),
        cu])
    | _ => pure none
  match r1 with
  | some u => pure (.str u)
  | none => do
    let r2 ← match specialType with
      | some "svg" => do
        let cu ← getField insc "content_url"
        pure (if truthy cu then some cu else none)
      | _ => pure none
    match r2 with
    | some cu => pure cu
    | none =>
      match specialType with
      | some "text" => pure .undefined
      | _ => do
        let idv ← getField insc "id"
        let iid ← if truthy idv then pure idv else getField insc "inscription_id"
        let cu ← getField insc "content_url"
        let pu ← getField insc "preview_url"
        match firstHttp [cu, pu,
            .str ("https://ordinals.com/content/" ++ jsToStr iid),
            .str ("https://ordinals.com/preview/" ++ jsToStr iid),
            .str ("https://ord.io/" ++ jsToStr iid),
            .str ("https://ordinalslite.com/content/" ++ jsToStr iid),
            .str ("https://api.hiro.so/ordinals/v1/inscriptions/" ++ jsToStr iid ++ "/content")] with
        | some u => pure (.str u)
        | none => pure .undefined

/-- One inscription of a Hiro results array mapped to an Asset; any throw
while building it is the per-item parse error the loop catches. -/
def hiroItem (address : String) (insc : Json) : Except Unit Asset := do
  let specialType ← detectSpecialInscriptionType insc
  let idv ← getField insc "id"
  let nm ← getInscriptionName insc specialType
  let numv ← getField insc "number"
  let ctv ← getField insc "content_type"
  let cuv ← getField insc "content_url"
  let img ← getOrdinalImageUrl insc (some specialType)
  let coll ← getCollectionName insc specialType
  pure
    { id := "btc_" ++ address ++ "_ordinal_" ++ jsToStr idv
      type := "ordinal"
      chain := "bitcoin"
      walletAddress := address
      name := nm
      symbol := .str "ORD"
      decimals := none
      balance := "1"
      balanceFormatted := "1"
      contractAddress := .undefined
      tokenStandard := .undefined
      tokenId := idv
      inscriptionId := idv
      inscriptionNumber := numv
      contentType := ctv
      contentUrl := cuv
      imageUrl := img
      collectionName := coll }

/-- The per-item loop of both parsers: a throwing item is logged and
skipped, the others are pushed in order. -/
def parseLoop (f : Json → Except Unit Asset) : List Json → List Asset
  | [] => []
  | x :: xs =>
    match f x with
    | .ok a => a :: parseLoop f xs
    | .error _ => parseLoop f xs

/-- parseHiroOrdinals: empty unless data.results is a (truthy) array, else
the per-item loop over the results.  Property access on a null or undefined
payload throws out of the parser. -/
def parseHiroOrdinals (address : String) (data : Json) : Except Unit (List Asset) := do
  let results ← getField data "results"
  if truthy results && isArr results then
    match results with
    | .arr xs => pure (parseLoop (hiroItem address) xs)
    | _ => pure []
  else pure []

/-- One MagicEden token mapped to an Asset. -/
def meItem (address : String) (tok : Json) : Except Unit Asset := do
  let idv ← getField tok "id"
  let metav ← getField tok "meta"
  let mn := optGet metav "name"
  let inumv ← getField tok "inscriptionNumber"
  let nm := if truthy mn then mn else .str ("Ordinal #" ++ jsToStr inumv)
  let ctv ← getField tok "contentType"
  let mi := optGet metav "image"
  let iuriv ← getField tok "imageURI"
  let img := if truthy mi then mi else iuriv
  let collv ← getField tok "collectionSymbol"
  let coll := if truthy collv then collv else .str "Bitcoin Ordinals"
  pure
    { id := "btc_" ++ address ++ "_ordinal_" ++ jsToStr idv
      type := "ordinal"
      chain := "bitcoin"
      walletAddress := address
      name := nm
      symbol := .str "ORD"
      decimals := none
      balance := "1"
      balanceFormatted := "1"
      contractAddress := .undefined
      tokenStandard := .undefined
      tokenId := idv
      inscriptionId := idv
      inscriptionNumber := inumv
      contentType := ctv
      contentUrl := .undefined
      imageUrl := img
      collectionName := coll }

/-- parseMagicEdenOrdinals: empty on any non-array payload (Array.isArray
is safe on every value, so this parser never throws), else the per-item
loop. -/
def parseMagicEdenOrdinals (address : String) (data : Json) : Except Unit (List Asset) :=
  match data with
  | .arr xs => .ok (parseLoop (meItem address) xs)
  | _ => .ok []

/-- What one indexer attempt of getOrdinals can deliver: the fetch or the
body decoding threw, or the response had a non-success status, or a JSON
payload arrived. -/
inductive UpstreamResult where
  | netError
  | httpError (status : Nat)
  | payload (j : Json)

/-- The for-loop of getOrdinals over (parser, outcome) pairs: continue on a
thrown fetch, a non-success status, a throwing parse, or an empty parsed
list; stop with the parsed list on the first non-empty one. -/
def tryIndexers : List ((Json → Except Unit (List Asset)) × UpstreamResult) → List Asset
  | [] => []
  | (p, r) :: rest =>
    match r with
    | .netError => tryIndexers rest
    | .httpError _ => tryIndexers rest
    | .payload j =>
      match p j with
      | .error _ => tryIndexers rest
      | .ok l => if l.isEmpty then tryIndexers rest else l

/-- getOrdinals over the declared indexer list (Hiro first, then MagicEden
as fallback); the loop catches every per-source failure, so the function
always returns a successful response. -/
def getOrdinals (address : String) (rHiro rMagicEden : UpstreamResult) : APIResponse (List Asset) :=
  ⟨true, some (tryIndexers
    [(parseHiroOrdinals address, rHiro), (parseMagicEdenOrdinals address, rMagicEden)]), none⟩

/-- Yield of one indexer source viewed in isolation: its parsed list when a
payload arrived and parsed without throwing, empty otherwise. -/
def sourceYield (p : Json → Except Unit (List Asset)) : UpstreamResult → List Asset
  | .netError => []
  | .httpError _ => []
  | .payload j =>
    match p j with
    | .ok l => l
    | .error _ => []

end BitcoinHandler

namespace ContentRelay

/-! Embedding of src/app/content/[id]/route.ts (the GET route handler). -/

/-- The single upstream content host URL the relay fetches, built from the
inscription identifier path segment. -/
def sourceUrl (id : String) : String := "https://ordinals.com/content/" ++ id

/-- The AbortSignal.timeout bound passed to the one upstream fetch, in
milliseconds. -/
def TIMEOUT_MS : Nat := 10000

/-- Outcome of the single upstream fetch: the fetch threw (network failure,
or the 10 second timeout aborting it, or a failing body read), or a
response arrived with its ok flag, content-type header and body bytes. -/
inductive Upstream where
  | thrown
  | response (ok : Bool) (contentType : Option String) (body : List Nat)

/-- Body of a relay response: raw proxied bytes, or the JSON error object
with the requested identifier. -/
inductive RelayBody where
  | bytes (b : List Nat)
  | jsonError (error : String) (id : String)

/-- The NextResponse produced by the route: status, the explicitly set
headers, and the body. -/
structure RelayResponse where
  status : Nat
  contentType : String
  cacheControl : Option String
  accessControlAllowOrigin : Option String
  body : RelayBody

/-- The 404 fall-through response (NextResponse.json sets an
application/json content type). -/
def notFound (id : String) : RelayResponse :=
  { status := 404
    contentType := "application/json"
    cacheControl := none
    accessControlAllowOrigin := none
    body := .jsonError "Content not found" id }

/-- GET: one upstream fetch, no retry and no second upstream.  A success
status re-serves the bytes with the declared content type (falling back to
application/octet-stream when the header is absent or empty), a 24 hour
cache directive and a permissive cross-origin header; everything else falls
through to the 404 JSON error carrying the identifier. -/
def GET (id : String) (r : Upstream) : RelayResponse :=
  match r with
  | .response true ct body =>
    { status := 200
      contentType :=
        match ct with
        | some s => if s.isEmpty then "application/octet-stream" else s
        | none => "application/octet-stream"
      cacheControl := some "public, max-age=86400"
      accessControlAllowOrigin := some "*"
      body := .bytes body }
  | .response false _ _ => notFound id
  | .thrown => notFound id

end ContentRelay

namespace EthereumHandler

/-! Embedding of src/chains/ethereum.ts (class EthereumHandler). -/

/-- One entry of the POPULAR_TOKENS configuration. -/
structure TokenConfig where
  address : String
  symbol : String
  name : String
  decimals : Nat

/-- The configured token list in declaration order. -/
def POPULAR_TOKENS : List TokenConfig :=
  [⟨"0x2b591e99afE9f32eAA6214f7B7629768c40Eeb39", "HEX", "HEX", 8⟩,
   ⟨"0xA0b86991c6218b36c1d19D4a2e9Eb0cE3606eB48", "USDC", "USD Coin", 6⟩,
   ⟨"0xdAC17F958D2ee523a2206206994597C13D831ec7", "USDT", "Tether USD", 6⟩,
   ⟨"0x514910771AF9Ca656af840dff83E8264EcF986CA", "LINK", "Chainlink", 18⟩]

/-- ethers.formatUnits on a non-negative integer amount: the integer part,
a dot, and the fractional digits with trailing zeros trimmed, keeping at
least one digit. -/
def formatUnits (v : Nat) (decimals : Nat) : String :=
  let frac := trimZeros (padZeros decimals (toString (v % 10 ^ decimals)))
  toString (v / 10 ^ decimals) ++ "." ++ (if frac.isEmpty then "0" else frac)

/-- The Asset built for a positive token balance. -/
def tokenAsset (address : String) (t : TokenConfig) (b : Nat) : Asset :=
  { id := "eth_" ++ address ++ "_" ++ t.address
    type := "token"
    chain := "ethereum"
    walletAddress := address
    name := .str t.name
    symbol := .str t.symbol
    decimals := some t.decimals
    balance := toString b
    balanceFormatted := formatUnits b t.decimals
    contractAddress := .str t.address
    tokenStandard := .str "ERC-20"
    tokenId := .undefined
    inscriptionId := .undefined
    inscriptionNumber := .undefined
    contentType := .undefined
    contentUrl := .undefined
    imageUrl := .undefined
    collectionName := .undefined }

/-- The per-token loop of getTokenBalances over the outcome environment
`env` (the balanceOf call per contract address: thrown, or the returned
uint256): a throwing token is caught, logged and skipped; a returned
balance is pushed only when strictly positive. -/
def tokenLoop (address : String) (env : String → Except Unit Nat) : List TokenConfig → List Asset
  | [] => []
  | t :: rest =>
    match env t.address with
    | .error _ => tokenLoop address env rest
    | .ok b =>
      if b > 0 then tokenAsset address t b :: tokenLoop address env rest
      else tokenLoop address env rest

/-- getTokenBalances: the loop never escapes an exception, so the scan
always returns a successful response with the collected assets. -/
def getTokenBalances (address : String) (env : String → Except Unit Nat) : APIResponse (List Asset) :=
  ⟨true, some (tokenLoop address env POPULAR_TOKENS), none⟩

/-- Whether the configured provider key is absent in the JavaScript sense
tested by the code (undefined environment variable or empty string, both
falsy). -/
def keyMissing : Option String → Bool
  | none => true
  | some s => s.isEmpty

/-- Outcome of the Alchemy owned-NFTs fetch: the fetch or the body decoding
threw with the given stringified error, or a JSON payload arrived (the code
never inspects the HTTP status here). -/
inductive EvmNftUpstream where
  | thrown (msg : String)
  | payload (j : Json)

/-- media mapped through the optional chain media?.[0]?.gateway. -/
def mediaGateway (media : Json) : Json := optGet (optIndex media 0) "gateway"

/-- One entry of ownedNfts mapped to an Asset, with the truthiness
fallbacks of the source object literal. -/
def evmNftItem (address : String) (nft : Json) : Except Unit Asset := do
  let contract ← getField nft "contract"
  let caddr ← getField contract "address"
  let idObj ← getField nft "id"
  let tid ← getField idObj "tokenId"
  let title ← getField nft "title"
  let meta ← getField nft "metadata"
  let mn := optGet meta "name"
  let nm := if truthy title then title else if truthy mn then mn else .str "Unknown NFT"
  let csym ← getField contract "symbol"
  let sym := if truthy csym then csym else .str "NFT"
  let ttype ← getField contract "tokenType"
  let mi := optGet meta "image"
  let media ← getField nft "media"
  let img := if truthy mi then mi else mediaGateway media
  let cname ← getField contract "name"
  pure
    { id := "eth_" ++ address ++ "_" ++ jsToStr caddr ++ "_" ++ jsToStr tid
      type := "nft"
      chain := "ethereum"
      walletAddress := address
      name := nm
      symbol := sym
      decimals := none
      balance := "1"
      balanceFormatted := "1"
      contractAddress := caddr
      tokenStandard := ttype
      tokenId := tid
      inscriptionId := .undefined
      inscriptionNumber := .undefined
      contentType := .undefined
      contentUrl := .undefined
      imageUrl := img
      collectionName := cname }

/-- JavaScript Array.prototype.map with a throwing callback: the first
throw aborts the whole map. -/
def mapExcept (f : Json → Except Unit Asset) : List Json → Except Unit (List Asset)
  | [] => .ok []
  | x :: xs => do
    let a ← f x
    let rest ← mapExcept f xs
    pure (a :: rest)

/-- Body of the with-key branch of getNFTs after the payload arrived: an
absent (falsy) ownedNfts field short-circuits to an empty success; a truthy
non-array has no map method and throws; otherwise the per-item map runs,
propagating any item throw. -/
def nftBody (address : String) (j : Json) : Except Unit (APIResponse (List Asset)) := do
  let owned ← getField j "ownedNfts"
  if truthy owned then
    match owned with
    | .arr xs => do
      let assets ← mapExcept (evmNftItem address) xs
      pure ⟨true, some assets, none⟩
    | _ => .error ()
  else pure ⟨true, some [], none⟩

/-- getNFTs: capability-gated on the provider key; with a key, the one
fetch either throws (caught into a tagged failure) or its payload is
processed by nftBody, whose own throws the catch block also turns into a
tagged failure (engine TypeError text abbreviated). -/
def getNFTs (apiKey : Option String) (address : String) (r : EvmNftUpstream) : APIResponse (List Asset) :=
  if keyMissing apiKey then ⟨true, some [], none⟩
  else
    match r with
    | .thrown msg => ⟨false, none, some ("Failed to fetch NFTs: " ++ msg)⟩
    | .payload j =>
      match nftBody address j with
      | .ok resp => resp
      | .error _ => ⟨false, none, some "Failed to fetch NFTs"⟩

/-- getAllAssets of the EVM handler, parameterized by the outcomes of its
three sub-fetches (getETHBalance, getTokenBalances, getNFTs), pushing each
successful sub-result with truthy data in the fixed source order and always
returning success. -/
def getAllAssets (ethResult : APIResponse Asset)
    (tokensResult nftsResult : APIResponse (List Asset)) : APIResponse (List Asset) :=
  let assets1 : List Asset :=
    match ethResult.success, ethResult.data with
    | true, some a => [a]
    | _, _ => []
  let assets2 : List Asset :=
    match tokensResult.success, tokensResult.data with
    | true, some l => assets1 ++ l
    | _, _ => assets1
  let assets3 : List Asset :=
    match nftsResult.success, nftsResult.data with
    | true, some l => assets2 ++ l
    | _, _ => assets2
  ⟨true, some assets3, none⟩

/-- Contribution of a successful single-asset sub-fetch (an asset object is
always truthy). -/
def succOne (r : APIResponse Asset) : List Asset :=
  match r.success, r.data with
  | true, some a => [a]
  | _, _ => []

/-- Contribution of a successful list sub-fetch (an array is truthy even
when empty). -/
def succMany (r : APIResponse (List Asset)) : List Asset :=
  match r.success, r.data with
  | true, some l => l
  | _, _ => []

end EthereumHandler

/-! Concrete example values used by witnesses and counterexamples. -/

/-- A same-origin reference through the ContentRelay route, whose path in
the app is content/[id] (src/app/content/[id]/route.ts). -/
def contentRelayRef (id : String) : String := "/content/" ++ id

/-- A string matching the segwit pattern (bc1 followed by 39 chars of
[a-z0-9]). -/
def exSegwitAddr : String := "bc1qw508d6qejxtdg4y5r3zarvary0c5xw7kv8f3t4"

/-- A string matching the taproot pattern (bc1p followed by 58 chars of
[a-z0-9]). -/
def exTaprootAddr : String := "bc1p" ++ String.mk (List.replicate 58 'q')

/-- A Hiro inscription payload with an image content type and no supplied
content or preview URL; it classifies as standard. -/
def inscStd : Json :=
  .obj [("id", .str "abc123i0"), ("content_type", .str "image/png"), ("number", .num 5)]

/-- A Hiro inscription payload with HTML content and a supplied preview
URL; it classifies as interactive. -/
def inscInteractive : Json :=
  .obj [("id", .str "catid"), ("content_type", .str "text/html"),
        ("preview_url", .str "https://example.org/preview")]

/-! Theorems. -/

open BitcoinHandler

/-- Helper: a list guarded by its own emptiness check is itself. -/
theorem if_isEmpty_self {α : Type} (l : List α) :
    (if l.isEmpty then ([] : List α) else l) = l := by
  cases l <;> simp

/-- Helper: one step of the getOrdinals indexer loop in terms of the
isolated yield of its head source. -/
theorem tryIndexers_cons (p : Json → Except Unit (List Asset)) (r : UpstreamResult)
    (rest : List ((Json → Except Unit (List Asset)) × UpstreamResult)) :
    tryIndexers ((p, r) :: rest) =
      (if (sourceYield p r).isEmpty then tryIndexers rest else sourceYield p r) := by
  cases r with
  | netError => simp [tryIndexers, sourceYield]
  | httpError s => simp [tryIndexers, sourceYield]
  | payload j =>
    cases hp : p j with
    | error e => simp [tryIndexers, sourceYield, hp]
    | ok l => cases l <;> simp [tryIndexers, sourceYield, hp]

/-- C1: OrdinalResolver (BitcoinHandler.getOrdinals) tries the indexer
sources in their declared order (Hiro first, then MagicEden); a source that
returns a non-success HTTP status, throws, or parses to an empty list does
not stop the chain — the next source is tried with no retry of the same
source; it stops exactly when the parsed result of a source is non-empty,
returning that result; and if every source fails or yields zero parsed
inscriptions it returns a successful result with an empty list, not a
failure.  The equation characterizes the response completely: the Hiro
yield is consulted first and wins exactly when non-empty (any fetch error,
non-success status, parse throw or empty parse giving the empty yield),
otherwise the MagicEden yield is returned, each source consulted at most
once, and success is unconditional. -/
theorem getOrdinals_first_nonempty_source_wins (address : String)
    (rHiro rMagicEden : UpstreamResult) :
    getOrdinals address rHiro rMagicEden =
      ⟨true, some
        (if (sourceYield (parseHiroOrdinals address) rHiro).isEmpty then
          sourceYield (parseMagicEdenOrdinals address) rMagicEden
         else sourceYield (parseHiroOrdinals address) rHiro), none⟩ := by
  rw [getOrdinals, tryIndexers_cons, tryIndexers_cons]
  simp only [tryIndexers, if_isEmpty_self]

/-- C2: for every combination of sub-fetch outcomes, the EVM handler
getAllAssets returns a successful result whose data is the concatenation,
in the fixed order native balance, token balances, NFTs, of exactly those
sub-fetch results that succeeded (with truthy data, which every successful
sub-fetch of the handler carries); the failure of any one sub-fetch never
causes getAllAssets itself to return a failure. -/
theorem evm_getAllAssets_concat (e : APIResponse Asset) (t n : APIResponse (List Asset)) :
    EthereumHandler.getAllAssets e t n =
      ⟨true, some (EthereumHandler.succOne e ++ EthereumHandler.succMany t
        ++ EthereumHandler.succMany n), none⟩ := by
  rcases e with ⟨es, ed, ee⟩
  rcases t with ⟨ts, td, te⟩
  rcases n with ⟨ns, nd, ne⟩
  cases es <;> cases ts <;> cases ns <;> cases ed <;> cases td <;> cases nd <;>
    simp [EthereumHandler.getAllAssets, EthereumHandler.succOne, EthereumHandler.succMany]

/-- C3: ContentRelay GET /content/[id]: when the upstream fetch returns a
success status, the response has status 200, the declared content type of
the upstream (or application/octet-stream when the header is absent), a 24
hour cache directive and a permissive cross-origin header; when the
upstream fetch fails, times out (the 10 second bound), or returns a
non-success status, the response has status 404 with a JSON body containing
the requested identifier; the handler consults exactly one upstream outcome
with no retry. -/
theorem contentRelay_GET_contract (id : String) :
    (∀ s body, s.isEmpty = false →
      ContentRelay.GET id (.response true (some s) body) =
        ⟨200, s, some "public, max-age=86400", some "*", .bytes body⟩)
    ∧ (∀ body, ContentRelay.GET id (.response true none body) =
        ⟨200, "application/octet-stream", some "public, max-age=86400", some "*", .bytes body⟩)
    ∧ (∀ ct body, ContentRelay.GET id (.response false ct body) = ContentRelay.notFound id)
    ∧ ContentRelay.GET id .thrown = ContentRelay.notFound id
    ∧ (ContentRelay.notFound id).status = 404
    ∧ (ContentRelay.notFound id).body = .jsonError "Content not found" id
    ∧ ContentRelay.TIMEOUT_MS = 10000 := by
  refine ⟨?_, ?_, ?_, rfl, rfl, rfl, rfl⟩
  · intro s body h
    simp [ContentRelay.GET, h]
  · intro body
    rfl
  · intro ct body
    rfl

/-- C3 witness: a concrete success and the headers it carries. -/
theorem contentRelay_GET_contract_w :
    ContentRelay.GET "abc" (.response true (some "image/png") [137, 80]) =
      ⟨200, "image/png", some "public, max-age=86400", some "*", .bytes [137, 80]⟩ :=
  (contentRelay_GET_contract "abc").1 "image/png" [137, 80] rfl

/-- C4: for every valid Bitcoin address whose UTXO summary reports a
funded-output sum and a spent-output sum (in satoshis), getBTCBalance
returns an asset whose balance is the decimal string of funded minus spent
and whose balanceFormatted is that difference over 10^8 rendered with
exactly 8 decimal places (integer part, dot, 8 zero-padded fractional
digits). -/
theorem getBTCBalance_funded_minus_spent (address : String) (funded spent : Int)
    (hv : validateBitcoinAddress address = true) (hs : spent ≤ funded) :
    ∃ a : Asset,
      (getBTCBalance address (.stats funded spent)).1 = ⟨true, some a, none⟩
      ∧ a.balance = toString (funded - spent)
      ∧ a.balanceFormatted =
          toString ((funded - spent).toNat / 100000000) ++ "."
            ++ padZeros 8 (toString ((funded - spent).toNat % 100000000)) := by
  refine ⟨btcNativeAsset address (funded - spent), ?_, rfl, ?_⟩
  · simp [getBTCBalance, hv]
  · have h0 : ¬ (funded - spent < 0) := by omega
    simp [btcNativeAsset, toFixed8, toFixed8Nat, h0]

/-- C4 witness: funded 150,000,000 and spent 50,000,000 satoshis at a
concrete segwit address give balance 100000000 and one BTC at 8 decimals. -/
theorem getBTCBalance_funded_minus_spent_w :
    ∃ a : Asset,
      (getBTCBalance exSegwitAddr (.stats 150000000 50000000)).1 = ⟨true, some a, none⟩
      ∧ a.balance = "100000000"
      ∧ a.balanceFormatted = "1.00000000" := by
  obtain ⟨a, h1, h2, h3⟩ :=
    getBTCBalance_funded_minus_spent exSegwitAddr 150000000 50000000 (by decide) (by decide)
  refine ⟨a, h1, ?_, ?_⟩
  · rw [h2]; rfl
  · rw [h3]; rfl

/-- C5: for every string that matches none of the Bitcoin address patterns,
getBTCBalance returns a tagged failure carrying the validation error
message, performs zero network fetches whatever the environment would have
answered, and raises nothing (the model is a total function into the tagged
response). -/
theorem getBTCBalance_invalid_address (s : String) (r : BtcUpstream)
    (h : validateBitcoinAddress s = false) :
    getBTCBalance s r =
      (⟨false, none, some "Failed to fetch BTC balance: Error: Invalid Bitcoin address format"⟩, 0) := by
  simp [getBTCBalance, h]

/-- C5 witness: a concrete malformed address is rejected without a fetch. -/
theorem getBTCBalance_invalid_address_w :
    getBTCBalance "not-a-bitcoin-address" (.stats 7 0) =
      (⟨false, none, some "Failed to fetch BTC balance: Error: Invalid Bitcoin address format"⟩, 0) :=
  getBTCBalance_invalid_address "not-a-bitcoin-address" (.stats 7 0) (by decide)

/-- C6: for every address and every fetch outcome, the EVM handler getNFTs
with no provider API key configured (the environment variable undefined, or
present but empty, both falsy) returns a successful result with an empty
asset list, never a failure. -/
theorem getNFTs_no_key_empty_success (address : String) (r : EthereumHandler.EvmNftUpstream) :
    EthereumHandler.getNFTs none address r = ⟨true, some [], none⟩
    ∧ EthereumHandler.getNFTs (some "") address r = ⟨true, some [], none⟩ :=
  ⟨rfl, rfl⟩

/-- C7: getTokenBalances scans the configured token list independently: a
token whose balance query throws is skipped without aborting the rest, and
the returned successful list contains exactly the configured tokens whose
queried balance is strictly positive, in configuration order, each with the
raw integer balance string and the formatted balance scaled by the token
decimals; in particular a raw balance of 1500000 at 6 decimals formats to
1.5. -/
theorem getTokenBalances_positive_only (address : String)
    (env : String → Except Unit Nat) :
    EthereumHandler.getTokenBalances address env =
      ⟨true, some (EthereumHandler.POPULAR_TOKENS.filterMap (fun t =>
        match env t.address with
        | .ok b => if b > 0 then some (EthereumHandler.tokenAsset address t b) else none
        | .error _ => none)), none⟩
    ∧ EthereumHandler.formatUnits 1500000 6 = "1.5" := by
  constructor
  · have h : ∀ l, EthereumHandler.tokenLoop address env l =
        l.filterMap (fun t =>
          match env t.address with
          | .ok b => if b > 0 then some (EthereumHandler.tokenAsset address t b) else none
          | .error _ => none) := by
      intro l
      induction l with
      | nil => rfl
      | cons t rest ih =>
        cases he : env t.address with
        | error e => simp [EthereumHandler.tokenLoop, he, ih]
        | ok b =>
          by_cases hb : b > 0 <;> simp [EthereumHandler.tokenLoop, he, hb, ih]
    rw [EthereumHandler.getTokenBalances, h]
  · rfl

/-- Helper: every character list matching the taproot pattern also matches
the segwit pattern (p is in [a-z0-9] and 59 lies in 39..59) and cannot
match the legacy pattern (it starts with b, not 1 or 3). -/
theorem taproot_pattern_overlap (l : List Char) (h : taprootChars l = true) :
    segwitChars l = true ∧ legacyChars l = false := by
  match l with
  | [] => simp [taprootChars] at h
  | [a] => simp [taprootChars] at h
  | [a, b] => simp [taprootChars] at h
  | [a, b, c] => simp [taprootChars] at h
  | a :: b :: c :: d :: rest =>
    simp only [taprootChars, Bool.and_eq_true, beq_iff_eq, decide_eq_true_eq] at h
    obtain ⟨⟨⟨⟨⟨ha, hb⟩, hc⟩, hd⟩, hall⟩, hlen⟩ := h
    subst ha hb hc hd
    constructor
    · have hax : ('p' :: rest).all lowerAlnum = true := by
        simp only [List.all_cons, Bool.and_eq_true]
        exact ⟨by decide, hall⟩
      have hlen2 : ('p' :: rest).length = 59 := by simp [hlen]
      simp [segwitChars, hax, hlen2]
    · simp [legacyChars]

/-- C8 counterexample: a concrete string matching the taproot pattern is
reported valid but with the SegWit format, not Taproot, because the segwit
pattern (checked earlier by getAddressType) also matches every taproot
string. -/
theorem taproot_reported_as_segwit :
    taprootTest exTaprootAddr = true
    ∧ validateBitcoinAddress exTaprootAddr = true
    ∧ getAddressType exTaprootAddr = "SegWit"
    ∧ getAddressType exTaprootAddr ≠ "Taproot" := by
  refine ⟨by decide, by decide, by decide, by decide⟩

/-- C8 amended: every string matching the taproot pattern is reported
valid, but with the SegWit format (the segwit pattern, tested first, also
matches it); every string matching exactly one defined pattern is reported
with that format of that pattern; and every string matching no pattern is
reported invalid with the Unknown format; the classifier is a total
function and never throws. -/
theorem bitcoin_address_classification (s : String) :
    (taprootTest s = true →
      validateBitcoinAddress s = true ∧ getAddressType s = "SegWit")
    ∧ (legacyTest s = true → segwitTest s = false → taprootTest s = false →
      getAddressType s = "Legacy")
    ∧ (legacyTest s = false → segwitTest s = true → taprootTest s = false →
      getAddressType s = "SegWit")
    ∧ (legacyTest s = false → segwitTest s = false → taprootTest s = true →
      getAddressType s = "Taproot")
    ∧ (legacyTest s = false → segwitTest s = false → taprootTest s = false →
      validateBitcoinAddress s = false ∧ getAddressType s = "Unknown") := by
  refine ⟨?_, ?_, ?_, ?_, ?_⟩
  · intro h
    obtain ⟨hseg, hleg⟩ := taproot_pattern_overlap s.data h
    constructor
    · simp [validateBitcoinAddress, segwitTest, hseg]
    · simp [getAddressType, legacyTest, segwitTest, hleg, hseg]
  · intro h1 h2 h3
    simp [getAddressType, h1]
  · intro h1 h2 h3
    simp [getAddressType, h1, h2]
  · intro h1 h2 h3
    obtain ⟨hseg, _⟩ := taproot_pattern_overlap s.data h3
    rw [segwitTest] at h2
    rw [hseg] at h2
    exact absurd h2 (by simp)
  · intro h1 h2 h3
    constructor
    · simp [validateBitcoinAddress, h1, h2, h3]
    · simp [getAddressType, h1, h2, h3]

/-- C8 witness: the amended classification applied at the concrete taproot
string. -/
theorem bitcoin_address_classification_w :
    validateBitcoinAddress exTaprootAddr = true
    ∧ getAddressType exTaprootAddr = "SegWit" :=
  (bitcoin_address_classification exTaprootAddr).1 (by decide)

/-- Helper: a list that begins with a pattern still begins with it after
appending. -/
theorem listStarts_append (l t pat : List Char) (h : listStarts l pat = true) :
    listStarts (l ++ t) pat = true := by
  induction pat generalizing l with
  | nil => simp [listStarts]
  | cons b bs ih =>
    cases l with
    | nil => simp [listStarts] at h
    | cons a as =>
      simp only [listStarts, Bool.and_eq_true] at h
      simp only [List.cons_append, listStarts, Bool.and_eq_true]
      exact ⟨h.1, ih as h.2⟩

/-- Helper: startsWith is stable under appending on the right. -/
theorem strStarts_of_append (a b pat : String) (h : strStarts a pat = true) :
    strStarts (a ++ b) pat = true := by
  show listStarts ((a ++ b).data) pat.data = true
  have hd : (a ++ b).data = a.data ++ b.data := rfl
  rw [hd]
  exact listStarts_append a.data b.data pat.data h

/-- C9 counterexample: a concrete standard-classified inscription derives
the direct upstream content-host URL, not a reference through the
ContentRelay route, and a concrete interactive-classified inscription does
derive a renderable URL rather than being described by content-type
metadata alone. -/
theorem ordinal_image_not_relayed :
    detectSpecialInscriptionType inscStd = .ok "standard"
    ∧ getOrdinalImageUrl inscStd (some "standard") =
        .ok (.str "https://ordinals.com/content/abc123i0")
    ∧ "https://ordinals.com/content/abc123i0" ≠ contentRelayRef "abc123i0"
    ∧ detectSpecialInscriptionType inscInteractive = .ok "interactive"
    ∧ getOrdinalImageUrl inscInteractive (some "interactive") =
        .ok (.str "https://example.org/preview")
    ∧ (Json.str "https://example.org/preview") ≠ .undefined := by
  refine ⟨rfl, rfl, by decide, rfl, rfl, fun h => Json.noConfusion h⟩

/-- Helper: bind on a successful Except computation. -/
theorem exc_bind_ok {A B : Type} (a : A) (f : A → Except Unit B) :
    (Except.ok a >>= f : Except Unit B) = f a := rfl

/-- Helper: pure in the Except monad is ok. -/
theorem exc_pure {A : Type} (a : A) : (pure a : Except Unit A) = .ok a := rfl

/-- C9 amended: the classification drives the content strategy, but not as
the claim stated it.  A text inscription yields no image URL at all; an svg
inscription with a truthy content_url yields that content_url; an
interactive inscription with a string preview_url starting with http yields
that preview URL — so interactive and svg content is not described by
content-type metadata alone; and a standard inscription with a nonempty
string identifier and no supplied content or preview URL derives the direct
upstream content-host URL built from the identifier — the very upstream the
ContentRelay proxies (ContentRelay.sourceUrl), referenced directly rather
than through the relay route. -/
theorem ordinal_content_strategy :
    (∀ insc : Json, getOrdinalImageUrl insc (some "text") = .ok .undefined)
    ∧ (∀ (insc u : Json), getField insc "content_url" = .ok u → truthy u = true →
        getOrdinalImageUrl insc (some "svg") = .ok u)
    ∧ (∀ (insc : Json) (p : String), getField insc "preview_url" = .ok (.str p) →
        strStarts p "http" = true →
        getOrdinalImageUrl insc (some "interactive") = .ok (.str p))
    ∧ (∀ (insc : Json) (s : String), getField insc "id" = .ok (.str s) →
        s.isEmpty = false →
        getField insc "content_url" = .ok .undefined →
        getField insc "preview_url" = .ok .undefined →
        getOrdinalImageUrl insc (some "standard") = .ok (.str (ContentRelay.sourceUrl s))) := by
  refine ⟨fun insc => rfl, ?_, ?_, ?_⟩
  · intro insc u hcu htr
    cases insc with
    | null => simp [getField] at hcu
    | undefined => simp [getField] at hcu
    | obj fs =>
      simp only [getField, Except.ok.injEq] at hcu
      subst hcu
      simp [getOrdinalImageUrl, getField, exc_bind_ok, exc_pure, htr]
    | bool b =>
      simp only [getField, Except.ok.injEq] at hcu
      subst hcu
      simp [truthy] at htr
    | num n =>
      simp only [getField, Except.ok.injEq] at hcu
      subst hcu
      simp [truthy] at htr
    | str s =>
      simp only [getField, Except.ok.injEq] at hcu
      subst hcu
      simp [truthy] at htr
    | arr xs =>
      simp only [getField, Except.ok.injEq] at hcu
      subst hcu
      simp [truthy] at htr
  · intro insc p hp hhttp
    cases insc with
    | null => simp [getField] at hp
    | undefined => simp [getField] at hp
    | obj fs =>
      simp only [getField, Except.ok.injEq] at hp
      simp [getOrdinalImageUrl, getField, exc_bind_ok, exc_pure, hp, firstHttp, hhttp]
    | bool b => simp [getField] at hp
    | num n => simp [getField] at hp
    | str s => simp [getField] at hp
    | arr xs => simp [getField] at hp
  · intro insc s hid hne hcu hpu
    cases insc with
    | null => simp [getField] at hid
    | undefined => simp [getField] at hid
    | obj fs =>
      simp only [getField, Except.ok.injEq] at hid hcu hpu
      have hstart : strStarts ("https://ordinals.com/content/" ++ s) "http" = true :=
        strStarts_of_append "https://ordinals.com/content/" s "http" (by decide)
      simp [getOrdinalImageUrl, getField, exc_bind_ok, exc_pure, hid, hcu, hpu,
        firstHttp, truthy, hne, jsToStr, ContentRelay.sourceUrl, hstart]
    | bool b => simp [getField] at hid
    | num n => simp [getField] at hid
    | str s2 => simp [getField] at hid
    | arr xs => simp [getField] at hid

/-- C9 witness: the amended standard-path strategy at the concrete standard
inscription resolves to the upstream content-host URL for its identifier. -/
theorem ordinal_content_strategy_w :
    getOrdinalImageUrl inscStd (some "standard") =
      .ok (.str (ContentRelay.sourceUrl "abc123i0")) :=
  ordinal_content_strategy.2.2.2 inscStd "abc123i0" rfl rfl rfl rfl

/-- C10 counterexample: the Hiro parser applied to the JSON payload null (a
payload with no results field, which a JSON upstream can deliver) throws —
property access on null is a TypeError — instead of returning an empty
list. -/
theorem parseHiro_throws_on_null :
    parseHiroOrdinals "addr" .null = .error ()
    ∧ parseHiroOrdinals "addr" .null ≠ .ok [] :=
  ⟨rfl, fun h => Except.noConfusion h⟩

/-- C10 amended: both parsers are total on every upstream payload except
that property access makes parseHiroOrdinals throw on null (and the
unreachable undefined): on any other payload whose results field is missing
or not an array it returns an empty list, and on any other payload it
returns without throwing; parseMagicEdenOrdinals is total on all payloads
and returns an empty list on every non-array; and a null payload from the
first source behaves exactly as a failed source — the fallback chain
continues to the next source. -/
theorem ordinal_parsers_totality :
    (∀ (address : String) (j : Json), j ≠ .null → j ≠ .undefined →
      isArr (optGet j "results") = false →
      parseHiroOrdinals address j = .ok [])
    ∧ (∀ (address : String) (j : Json), j ≠ .null → j ≠ .undefined →
      ∃ l, parseHiroOrdinals address j = .ok l)
    ∧ (∀ (address : String) (j : Json), isArr j = false →
      parseMagicEdenOrdinals address j = .ok [])
    ∧ (∀ (address : String) (j : Json), ∃ l,
      parseMagicEdenOrdinals address j = .ok l)
    ∧ (∀ (address : String) (rM : UpstreamResult),
      getOrdinals address (.payload .null) rM = getOrdinals address .netError rM) := by
  refine ⟨?_, ?_, ?_, ?_, fun address rM => rfl⟩
  · intro address j h0 h1 hA
    cases j with
    | null => exact absurd rfl h0
    | undefined => exact absurd rfl h1
    | bool b => rfl
    | num n => rfl
    | str s => rfl
    | arr xs => rfl
    | obj fs =>
      simp only [optGet] at hA
      simp [parseHiroOrdinals, getField, exc_bind_ok, exc_pure, hA]
  · intro address j h0 h1
    cases j with
    | null => exact absurd rfl h0
    | undefined => exact absurd rfl h1
    | bool b => exact ⟨[], rfl⟩
    | num n => exact ⟨[], rfl⟩
    | str s => exact ⟨[], rfl⟩
    | arr xs => exact ⟨[], rfl⟩
    | obj fs =>
      cases hr : jlookup fs "results" with
      | arr xs =>
        refine ⟨parseLoop (hiroItem address) xs, ?_⟩
        simp [parseHiroOrdinals, getField, exc_bind_ok, exc_pure, hr, truthy, isArr]
      | null => exact ⟨[], by simp [parseHiroOrdinals, getField, exc_bind_ok, exc_pure, hr, truthy]⟩
      | undefined => exact ⟨[], by simp [parseHiroOrdinals, getField, exc_bind_ok, exc_pure, hr, truthy]⟩
      | bool b => exact ⟨[], by simp [parseHiroOrdinals, getField, exc_bind_ok, exc_pure, hr, isArr]⟩
      | num n => exact ⟨[], by simp [parseHiroOrdinals, getField, exc_bind_ok, exc_pure, hr, isArr]⟩
      | str s => exact ⟨[], by simp [parseHiroOrdinals, getField, exc_bind_ok, exc_pure, hr, isArr]⟩
      | obj fs2 => exact ⟨[], by simp [parseHiroOrdinals, getField, exc_bind_ok, exc_pure, hr, isArr]⟩
  · intro address j hA
    cases j with
    | arr xs => simp [isArr] at hA
    | null => rfl
    | undefined => rfl
    | bool b => rfl
    | num n => rfl
    | str s => rfl
    | obj fs => rfl
  · intro address j
    cases j with
    | arr xs => exact ⟨parseLoop (meItem address) xs, rfl⟩
    | null => exact ⟨[], rfl⟩
    | undefined => exact ⟨[], rfl⟩
    | bool b => exact ⟨[], rfl⟩
    | num n => exact ⟨[], rfl⟩
    | str s => exact ⟨[], rfl⟩
    | obj fs => exact ⟨[], rfl⟩

/-- C10 witness: the amended totality at concrete malformed payloads — a
numeric payload for the Hiro parser and a string payload for the MagicEden
parser both parse to an empty list without throwing. -/
theorem ordinal_parsers_totality_w :
    parseHiroOrdinals "bc1qexample" (.num 5) = .ok []
    ∧ parseMagicEdenOrdinals "bc1qexample" (.str "oops") = .ok [] :=
  ⟨ordinal_parsers_totality.1 "bc1qexample" (.num 5)
      (fun h => Json.noConfusion h) (fun h => Json.noConfusion h) rfl,
    ordinal_parsers_totality.2.2.1 "bc1qexample" (.str "oops") rfl⟩
